import Mathlib

/-!
Verification of the Gianky reward-settlement orchestrator.

This file shallowly embeds the settlement logic of the repository:

* `AdminWalletService` (backend, in the admin-wallet script appended to
  `setup-contracts.sh`): `processGamePayment`, `processGameFee`,
  `processGiankyReward`, `processMaticReward`, `getSafeMaticAmount`,
  `processMaticToGiankyFallback`, `getMaticToGiankyEquivalent`,
  `processNFTReward`, `findAvailableTokenId`, `processHybridReward`,
  `getGiankyEquivalent`.
* `ContractService` (client, `src/services/contractService.ts`):
  `getTokenBalance`, `getNFTCount`, `checkGameEligibility`,
  `payGameFeeFromUser`, `waitForTransaction`, `playGameAndReceiveReward`,
  `transferRewardAfterReveal`.

Modelling conventions:

* Token, native-currency amounts and balances are rationals (`ℚ`), in
  ether units.  The source compares wei `BigInt`s obtained through
  `parseEther`, which is an order embedding from ether units, so every
  comparison is preserved.
* Every outbound ledger submission and every confirmation poll is recorded
  in an ordered event trace (`Ev`); a function returns its result paired
  with the trace of ledger interactions it performed, in program order.
* External outcomes the ledger decides (whether a submitted transaction's
  `wait()` confirms or reverts, whether a receipt arrives before the wait
  budget ends) are explicit `Bool`/`ReceiptOutcome` parameters, one per
  `await ... .wait()` / `waitForTransactionReceipt` site, mirroring the
  source's `try`/`catch` structure.
* Transaction hashes distinguish hashes returned by a ledger submission
  (`TxHash.real`) from the locally fabricated `mock_*` hashes the backend
  manufactures on some failure paths (`TxHash.mockNft` for
  `mock_nft_${Date.now()}` and so on); the timestamp suffix is dropped.
-/

namespace Gianky

/-- The custodial (admin) wallet address, `process.env.ADMIN_ADDRESS` /
`CONTRACTS.ADMIN_WALLET`. Opaque string identifier. -/
def adminAddr : String := "0x3dC4A08a56095186ce7200dEc812a1905b22F662"

/-- Address of the NFT contract, which is also the destination of the game
fee transfer in `processGamePayment` / `processGameFee`. -/
def nftContractAddr : String := "0xdc91E2fD661E88a9a1bcB1c826B5579232fc9898"

/-- Embeds `GAME_CONFIG.ENTRY_FEE` = 5 and `ethers.parseEther('5')` in
`processGamePayment` / `processGameFee`: the entry fee in Gianky tokens. -/
def requiredFee : ℚ := 5

/-- Reward categories of the orchestrator (`rewardType` strings
`'NFT' | 'Gianky' | 'Polygon'`). -/
inductive RewardType
  | nft
  | gianky
  | polygon
deriving DecidableEq, Repr

/-- NFT item classes: the keys of `nftToGiankyMap` / `typeMap`
(`'🎯 Starter NFT'`, …); `other` stands for any string not in the map. -/
inductive NftType
  | starter
  | basic
  | standard
  | vip
  | premium
  | diamond
  | other
deriving DecidableEq, Repr

/-- Transaction hashes: `real` is a hash returned by an actual ledger
submission; the `mock*` constructors are the locally fabricated hashes
(`mock_nft_…`, `mock_hybrid_…`, `mock_ultimate_…`, `mock_matic_fallback_…`,
`mock_matic_ultimate_…`) that the backend manufactures without submitting
anything. -/
inductive TxHash
  | real (tag : String)
  | mockNft
  | mockHybrid
  | mockUltimate
  | mockMaticFallback
  | mockMaticUltimate
deriving DecidableEq, Repr

/-- Whether a hash was fabricated locally rather than returned by the
ledger. -/
def TxHash.isMock : TxHash → Bool
  | .real _ => false
  | _ => true

/-- A single outbound value movement submitted to the ledger. -/
inductive Transfer
  | token (dest : String) (amount : ℚ)
  | native (dest : String) (amount : ℚ)
  | nftXfer (source : String) (dest : String) (tokenId : ℕ)
deriving DecidableEq, Repr

/-- The two legs of a settlement. -/
inductive Leg
  | fee
  | reward
deriving DecidableEq, Repr

/-- Ledger interaction events, in program order: a submission of a
transfer, or the outcome of awaiting its confirmation
(`tx.wait()` / `waitForTransactionReceipt`), `true` meaning the receipt
reported success. -/
inductive Ev
  | submit (l : Leg) (t : Transfer)
  | confirm (l : Leg) (ok : Bool)
deriving DecidableEq, Repr

/-- The on-chain state the orchestrator reads: custodial fungible (Gianky)
balance, custodial native (MATIC) balance, the custodian's NFT count
(`nftContract.balanceOf(admin)`), the `ownerOf` oracle (`none` models a
reverting `ownerOf` call), and the current gas price
(`maxFeePerGas || gasPrice`). -/
structure Ledger where
  adminGianky : ℚ
  adminMatic : ℚ
  adminNftCount : ℕ
  nftOwner : ℕ → Option String
  gasPrice : ℚ

/-- Gas cost `processMaticReward` (and the `Polygon` branch of
`processGamePayment`) estimates for a native transfer:
`BigInt(21000) * BigInt(gasPriceValue)`. -/
def estimatedGasCost (L : Ledger) : ℚ := 21000 * L.gasPrice

/-! ## Client-side balance reading and eligibility (`contractService.ts`) -/

/-- Embeds `ContractService.getTokenBalance`: reads the player's Gianky balance;
on any error the `catch` returns `'0'`.  The read itself is external, so it
is passed in as an `Except`-valued outcome. -/
def getTokenBalance (read : Except Unit ℚ) : ℚ :=
  match read with
  | .ok v => v
  | .error _ => 0

/-- Embeds `ContractService.getNFTCount`: reads the player's NFT count; on any
error the `catch` returns `0`. -/
def getNFTCount (read : Except Unit ℕ) : ℕ :=
  match read with
  | .ok n => n
  | .error _ => 0

/-- Result record of `checkGameEligibility` (interface
`ContractBalance`). -/
structure ContractBalance where
  tokenBalance : ℚ
  nftCount : ℕ
  isEligible : Bool
  shortfall : ℚ
deriving DecidableEq, Repr

/-- Embeds `ContractService.checkGameEligibility`: reads the two balances, then
computes `isEligible = balance >= ENTRY_FEE` and
`shortfall = max(0, ENTRY_FEE - balance)`.  It performs no ledger writes,
hence the always-empty event trace; it cannot throw because both reads
catch internally. -/
def checkGameEligibility (balRead : Except Unit ℚ) (nftRead : Except Unit ℕ) :
    ContractBalance × List Ev :=
  let bal := getTokenBalance balRead
  let nft := getNFTCount nftRead
  ({ tokenBalance := bal
     nftCount := nft
     isEligible := decide (bal ≥ requiredFee)
     shortfall := max 0 (requiredFee - bal) }, [])

/-! ## Backend fee settlement (`AdminWalletService`) -/

/-- Result record of the backend settlement entry points (`success`,
`feeTxHash`, `rewardTxHash`, `error`; the human-readable `message` strings
are dropped). -/
structure PaymentResult where
  success : Bool
  feeTxHash : Option TxHash := none
  rewardTxHash : Option TxHash := none
  error : Option String := none
deriving DecidableEq, Repr

/-- Embeds `AdminWalletService.processGameFee`: checks the custodial Gianky
balance against the 5-token fee; below the fee it throws
`'Admin wallet insufficient balance'` (caught into a failure result)
before submitting anything; otherwise it transfers the fee to the NFT
contract and awaits confirmation (`feeWaitOk` = whether `feeTx.wait()`
succeeds). -/
def processGameFee (L : Ledger) (feeWaitOk : Bool) : PaymentResult × List Ev :=
  if L.adminGianky < requiredFee then
    ({ success := false, error := some "Admin wallet insufficient balance" }, [])
  else
    if feeWaitOk then
      ({ success := true, feeTxHash := some (.real "fee") },
        [.submit .fee (.token nftContractAddr requiredFee), .confirm .fee true])
    else
      ({ success := false, error := some "fee transaction failed" },
        [.submit .fee (.token nftContractAddr requiredFee), .confirm .fee false])

/-- Step 2 of `AdminWalletService.processGamePayment` — the comment in the
source reads "Process reward FIRST (before paying game fee)".  Returns the
reward transaction hash (or the thrown error message) together with the
ledger events of the reward leg, exactly as the three `rewardType`
branches behave:

* `'NFT'`: the live code is the "TEMPORARY WORKAROUND": it fabricates
  `rewardTx = { hash: mock_nft_…, wait: async () => ({status: 1}) }`
  without touching the ledger (the real minting logic is commented out).
* `'Gianky'`: re-checks the custodial Gianky balance, throws
  `'Insufficient Gianky tokens…'` below the reward amount, otherwise
  submits an ERC-20 transfer to the user and awaits it (`waitOk`).
* `'Polygon'`: checks the custodial MATIC balance against
  `amount + estimatedGasCost`, throws `'Insufficient MATIC…'` below it,
  otherwise submits a native transfer and awaits it (`waitOk`). -/
def processRewardStep (L : Ledger) (user : String) (rt : RewardType)
    (rewardAmount : ℚ) (waitOk : Bool) : Except String TxHash × List Ev :=
  match rt with
  | .nft => (.ok .mockNft, [])
  | .gianky =>
      if L.adminGianky < rewardAmount then
        (.error "Insufficient Gianky tokens", [])
      else if waitOk then
        (.ok (.real "gianky-reward"),
          [.submit .reward (.token user rewardAmount), .confirm .reward true])
      else
        (.error "transaction execution reverted",
          [.submit .reward (.token user rewardAmount), .confirm .reward false])
  | .polygon =>
      if L.adminMatic < rewardAmount + estimatedGasCost L then
        (.error "Insufficient MATIC", [])
      else if waitOk then
        (.ok (.real "matic-reward"),
          [.submit .reward (.native user rewardAmount), .confirm .reward true])
      else
        (.error "transaction execution reverted",
          [.submit .reward (.native user rewardAmount), .confirm .reward false])

/-- Embeds `AdminWalletService.processGamePayment`: Step 1 checks the custodial
Gianky balance against the 5-token fee and throws before any transfer if
it is short; Step 2 processes the reward (see `processRewardStep`); Step 3
pays the game fee "ONLY after reward is successfully processed".  Any
thrown error is caught into `{ success: false, error }`. -/
def processGamePayment (L : Ledger) (user : String) (rt : RewardType)
    (rewardAmount : ℚ) (rewardWaitOk feeWaitOk : Bool) :
    PaymentResult × List Ev :=
  if L.adminGianky < requiredFee then
    ({ success := false, error := some "Admin wallet insufficient balance" }, [])
  else
    match processRewardStep L user rt rewardAmount rewardWaitOk with
    | (.error e, evs) => ({ success := false, error := some e }, evs)
    | (.ok h, evs) =>
        if feeWaitOk then
          ({ success := true, feeTxHash := some (.real "fee"), rewardTxHash := some h },
            evs ++ [.submit .fee (.token nftContractAddr requiredFee), .confirm .fee true])
        else
          ({ success := false, error := some "fee transaction failed" },
            evs ++ [.submit .fee (.token nftContractAddr requiredFee), .confirm .fee false])

/-! ## Native-currency (MATIC) strategy (`AdminWalletService`) -/

/-- The "ultra-safe MATIC amounts" ladder of `getSafeMaticAmount`:
`[0.05, 0.1, 0.15, 0.2, 0.25, 0.3, 0.4, 0.5]`, ascending. -/
def safeAmounts : List ℚ := [1/20, 1/10, 3/20, 1/5, 1/4, 3/10, 2/5, 1/2]

/-- The `for … of safeAmounts` loop of `getSafeMaticAmount`: keep the last
entry the request reaches, `break` at the first entry above it. -/
def pickSafe : List ℚ → ℚ → ℚ → ℚ
  | [], _, acc => acc
  | a :: rest, x, acc => if x ≥ a then pickSafe rest x a else acc

/-- Embeds `AdminWalletService.getSafeMaticAmount`: clamps the requested amount
to the ladder, starting from the default minimum `0.05`.  Note the loop
compares the ladder against the *requested* amount only — the custodial
balance is not consulted here. -/
def getSafeMaticAmount (originalAmount : ℚ) : ℚ :=
  pickSafe safeAmounts originalAmount (1/20)

/-- Embeds `AdminWalletService.getMaticToGiankyEquivalent`:
`Math.max(Math.floor(numericAmount * 2), 5)` — the fixed-ratio fungible
equivalent (1 MATIC = 2 Gianky) with a 5-token minimum floor. -/
def getMaticToGiankyEquivalent (maticAmount : ℚ) : ℚ :=
  max ((⌊maticAmount * 2⌋ : ℤ) : ℚ) 5

/-- Result record of the backend reward strategies (`success`,
`rewardTxHash`, `error`; `message` strings dropped). -/
structure RewardResult where
  success : Bool
  rewardTxHash : Option TxHash := none
  error : Option String := none
deriving DecidableEq, Repr

/-- Embeds `AdminWalletService.processMaticToGiankyFallback`: converts the
*original* MATIC amount via `getMaticToGiankyEquivalent`; if the custodial
Gianky balance covers it, submits the token transfer (`giankyWaitOk` =
whether `rewardTx.wait()` succeeds; a throw lands in the
`mock_matic_ultimate_…` catch); if the balance does not cover it, it
fabricates a `mock_matic_fallback_…` success without submitting. -/
def processMaticToGiankyFallback (L : Ledger) (user : String)
    (originalMaticAmount : ℚ) (giankyWaitOk : Bool) : RewardResult × List Ev :=
  let giankyEquivalent := getMaticToGiankyEquivalent originalMaticAmount
  if L.adminGianky ≥ giankyEquivalent then
    if giankyWaitOk then
      ({ success := true, rewardTxHash := some (.real "matic-fallback-gianky") },
        [.submit .reward (.token user giankyEquivalent), .confirm .reward true])
    else
      ({ success := true, rewardTxHash := some .mockMaticUltimate },
        [.submit .reward (.token user giankyEquivalent), .confirm .reward false])
  else
    ({ success := true, rewardTxHash := some .mockMaticFallback }, [])

/-- Embeds `AdminWalletService.processMaticReward`: clamps the request with
`getSafeMaticAmount`, estimates gas, and if the custodial MATIC balance is
below `safeAmount + estimatedGasCost` — or the submitted native transfer
fails (`maticWaitOk = false`) — falls back to
`processMaticToGiankyFallback` with the *original* amount. -/
def processMaticReward (L : Ledger) (user : String) (amount : ℚ)
    (maticWaitOk giankyWaitOk : Bool) : RewardResult × List Ev :=
  let safeAmount := getSafeMaticAmount amount
  if L.adminMatic < safeAmount + estimatedGasCost L then
    processMaticToGiankyFallback L user amount giankyWaitOk
  else
    if maticWaitOk then
      ({ success := true, rewardTxHash := some (.real "matic-reward") },
        [.submit .reward (.native user safeAmount), .confirm .reward true])
    else
      let (r, evs) := processMaticToGiankyFallback L user amount giankyWaitOk
      (r, [.submit .reward (.native user safeAmount), .confirm .reward false] ++ evs)

/-! ## Non-fungible strategy (`AdminWalletService`) -/

/-- The curated registry of `findAvailableTokenId` / `findOwnedTokenIds`:
"our known working token IDs". -/
def knownTokenIds : List ℕ :=
  [1000093, 2000050, 2000123, 3000028, 3000030, 3000067, 4000018, 5000024]

/-- Embeds `AdminWalletService.getGiankyEquivalent`: the static
`nftToGiankyMap` equivalence table, defaulting to 20 for unknown keys. -/
def getGiankyEquivalent : NftType → ℚ
  | .starter => 10
  | .basic => 15
  | .standard => 25
  | .vip => 50
  | .premium => 75
  | .diamond => 100
  | .other => 20

/-- Embeds `AdminWalletService.findAvailableTokenId`: scans the known token ids
in registry order and returns the first whose `ownerOf` equals the admin
address; a reverting `ownerOf` (`none`) is skipped (`continue`). -/
def findAvailableTokenId (L : Ledger) : Option ℕ :=
  knownTokenIds.find? fun tokenId => L.nftOwner tokenId == some adminAddr

/-- Embeds `AdminWalletService.processHybridReward`: converts the item class via
`getGiankyEquivalent`; if the custodial Gianky balance covers it, submits
the token transfer (`giankyWaitOk` = whether `rewardTx.wait()` succeeds; a
throw lands in the `mock_ultimate_…` catch); if the balance does not cover
it, it fabricates a `mock_hybrid_…` success without submitting. -/
def processHybridReward (L : Ledger) (user : String) (nftType : NftType)
    (giankyWaitOk : Bool) : RewardResult × List Ev :=
  let giankyAmount := getGiankyEquivalent nftType
  if L.adminGianky ≥ giankyAmount then
    if giankyWaitOk then
      ({ success := true, rewardTxHash := some (.real "hybrid-gianky") },
        [.submit .reward (.token user giankyAmount), .confirm .reward true])
    else
      ({ success := true, rewardTxHash := some .mockUltimate },
        [.submit .reward (.token user giankyAmount), .confirm .reward false])
  else
    ({ success := true, rewardTxHash := some .mockHybrid }, [])

/-- Embeds `AdminWalletService.processNFTReward` ("Smart Transfer Strategy"): if
the custodian's NFT balance is positive, look for an available registry
token id; transfer it on success (`nftWaitOk` = whether the
`transferFrom` and its `wait()` succeed, the catch falls back to the
hybrid reward); with no available id, or no NFT balance at all, use the
hybrid reward directly. -/
def processNFTReward (L : Ledger) (user : String) (nftType : NftType)
    (nftWaitOk giankyWaitOk : Bool) : RewardResult × List Ev :=
  if L.adminNftCount > 0 then
    match findAvailableTokenId L with
    | some tokenId =>
        if nftWaitOk then
          ({ success := true, rewardTxHash := some (.real "nft-transfer") },
            [.submit .reward (.nftXfer adminAddr user tokenId), .confirm .reward true])
        else
          let (r, evs) := processHybridReward L user nftType giankyWaitOk
          (r, [.submit .reward (.nftXfer adminAddr user tokenId),
               .confirm .reward false] ++ evs)
    | none => processHybridReward L user nftType giankyWaitOk
  else
    processHybridReward L user nftType giankyWaitOk

/-! ## Client transaction-flow controller (`contractService.ts`) -/

/-- Outcome of `publicClient.waitForTransactionReceipt`: a receipt with an
execution status, or a thrown error — the wait budget being exhausted with
no receipt (`timedOut`), or a network-level failure (`netError`). -/
inductive ReceiptOutcome
  | receipt (statusSuccess : Bool)
  | timedOut
  | netError
deriving DecidableEq, Repr

/-- Embeds `ContractService.waitForTransaction`: returns
`receipt.status === 'success'`; any thrown error (timeout included) is
caught and returns `false`. -/
def waitForTransaction (r : ReceiptOutcome) : Bool :=
  match r with
  | .receipt statusSuccess => statusSuccess
  | .timedOut => false
  | .netError => false

/-- Result record of the client flows (interface `TransactionResult`;
`message` strings dropped). -/
structure TransactionResult where
  success : Bool
  hash : Option TxHash := none
  error : Option String := none
deriving DecidableEq, Repr

/-- External outcomes of one client settlement run: whether the connected
network is Polygon, the player's token balance read, whether the
player-signed fee submission goes through (`writeContract` may throw),
the fee receipt outcome, whether the reward submission from the admin
wallet goes through, and the reward receipt outcome. -/
structure ClientEnv where
  networkCorrect : Bool
  userBalance : ℚ
  feeSubmit : Except String Unit
  feeReceipt : ReceiptOutcome
  rewardSubmit : Except String Unit
  rewardReceipt : ReceiptOutcome

/-- Embeds `ContractService.payGameFeeFromUser`: network check, player balance
check against the 5-token fee, then the player-signed ERC-20 transfer of
the fee to the admin wallet.  Submission errors are caught into failure
results. -/
def payGameFeeFromUser (env : ClientEnv) : TransactionResult × List Ev :=
  if ¬ env.networkCorrect then
    ({ success := false, error := some "Wrong network detected" }, [])
  else if env.userBalance < requiredFee then
    ({ success := false, error := some "Insufficient balance" }, [])
  else
    match env.feeSubmit with
    | .error e => ({ success := false, error := some e }, [])
    | .ok _ =>
        ({ success := true, hash := some (.real "user-fee") },
          [.submit .fee (.token adminAddr requiredFee)])

/-- Embeds `ContractService.playGameAndReceiveReward`: Step 1 the user pays the
fee, Step 2 the fee payment is awaited via `waitForTransaction`; only a
confirmed fee yields `success: true` ("Reward will be transferred after
reveal"); an unconfirmed fee returns "Fee payment failed. Please try
again.". -/
def playGameAndReceiveReward (env : ClientEnv) : TransactionResult × List Ev :=
  let (feeResult, evs) := payGameFeeFromUser env
  if ¬ feeResult.success then (feeResult, evs)
  else
    let feeConfirmed := waitForTransaction env.feeReceipt
    let evs := evs ++ [.confirm .fee feeConfirmed]
    if ¬ feeConfirmed then
      ({ success := false, error := some "Fee payment failed. Please try again." }, evs)
    else
      ({ success := true, hash := feeResult.hash }, evs)

/-- The reward `Transfer` the client dispatches for a reward descriptor
(`transferNFTReward` moves a registry NFT from the admin wallet;
`transferTokensFromAdmin` moves Gianky or MATIC). -/
def clientRewardTransfer (user : String) (rt : RewardType) (amount : ℚ)
    (tokenId : ℕ) : Transfer :=
  match rt with
  | .nft => .nftXfer adminAddr user tokenId
  | .gianky => .token user amount
  | .polygon => .native user amount

/-- Embeds `ContractService.transferRewardAfterReveal`: dispatches the reward to
`transferNFTReward` / `transferTokensFromAdmin` (their submission outcome
is `env.rewardSubmit`), then awaits the reward transfer via
`waitForTransaction`; an unconfirmed reward returns "Reward transfer
failed. Please try again.". -/
def transferRewardAfterReveal (env : ClientEnv) (user : String)
    (rt : RewardType) (amount : ℚ) (tokenId : ℕ) :
    TransactionResult × List Ev :=
  match env.rewardSubmit with
  | .error e => ({ success := false, error := some e }, [])
  | .ok _ =>
      let evs := [Ev.submit .reward (clientRewardTransfer user rt amount tokenId)]
      let rewardConfirmed := waitForTransaction env.rewardReceipt
      let evs := evs ++ [.confirm .reward rewardConfirmed]
      if ¬ rewardConfirmed then
        ({ success := false, error := some "Reward transfer failed. Please try again." }, evs)
      else
        ({ success := true, hash := some (.real "client-reward") }, evs)

/-- The complete client settlement run as `wheel/page.tsx` drives it: pay
and confirm the fee (`playGameAndReceiveReward`), and only on its success
reveal and transfer the reward (`transferRewardAfterReveal`).  The trace
is the concatenation of both legs' ledger events. -/
def clientSettlementRun (env : ClientEnv) (user : String) (rt : RewardType)
    (amount : ℚ) (tokenId : ℕ) : TransactionResult × List Ev :=
  let (feeResult, feeEvs) := playGameAndReceiveReward env
  if ¬ feeResult.success then (feeResult, feeEvs)
  else
    let (rewardResult, rewardEvs) := transferRewardAfterReveal env user rt amount tokenId
    (rewardResult, feeEvs ++ rewardEvs)

/-! ## Trace-ordering predicates

The ordering contracts of §4.3 / §8 of the specification, read off the
event traces produced above. -/

/-- Scans a trace left to right carrying "has the fee leg already
confirmed successfully?"; every reward-leg submission must find that flag
set.  This is the fee-terminal-success-before-reward-dispatch ordering. -/
def rewardOnlyAfterFeeSuccess : List Ev → Bool → Bool
  | [], _ => true
  | e :: rest, feeOk =>
    match e with
    | .submit .reward _ => feeOk && rewardOnlyAfterFeeSuccess rest feeOk
    | .confirm .fee ok => rewardOnlyAfterFeeSuccess rest (feeOk || ok)
    | _ => rewardOnlyAfterFeeSuccess rest feeOk

/-- Scans a trace left to right carrying "is a reward-leg submission still
pending (submitted, not yet confirmed either way)?"; every fee-leg
submission must find no reward submission pending. -/
def feeOnlyAfterRewardTerminal : List Ev → Bool → Bool
  | [], _ => true
  | e :: rest, pending =>
    match e with
    | .submit .reward _ => feeOnlyAfterRewardTerminal rest true
    | .confirm .reward _ => feeOnlyAfterRewardTerminal rest false
    | .submit .fee _ => !pending && feeOnlyAfterRewardTerminal rest pending
    | .confirm .fee _ => feeOnlyAfterRewardTerminal rest pending

/-! ## Nonce assignment under concurrency (`AdminWalletService`)

`AdminWalletService` holds one shared `ethers.Wallet` over the custodial
key (built in the constructor) and `processGamePayment` calls
`tokenContract.transfer(...)` / `adminWallet.sendTransaction(...)` on it
directly — there is no queue, lock or mutex anywhere in the class.  Each
such submission, as the ethers signer performs it, first reads the
account's next sequence position (nonce) from the provider and then
submits a transaction carrying that nonce.  Two concurrent settlement
requests therefore interleave their read-nonce and submit steps freely;
`SchedState` / `runSched` model exactly these interleavings for two
in-flight submissions from the same custodial account. -/

/-- One in-flight custodial submission: program counter 0 = about to read
the account nonce, 1 = about to submit with the nonce it read, 2 = done. -/
structure SubmitThread where
  pc : ℕ
  localNonce : ℕ
deriving DecidableEq, Repr

/-- Shared state: the account's next nonce as the provider reports it, the
two in-flight submissions, and the submissions accepted so far as
(thread id, nonce) pairs in order of arrival. -/
structure SchedState where
  chainNonce : ℕ
  thread0 : SubmitThread
  thread1 : SubmitThread
  submitted : List (ℕ × ℕ)
deriving DecidableEq, Repr

/-- Runs one step of the given thread: a read copies the account nonce
into the thread, a submit appends (thread, localNonce) and advances the
account nonce. -/
def stepThread (s : SchedState) (i : Fin 2) : SchedState :=
  let t := if i = 0 then s.thread0 else s.thread1
  if t.pc = 0 then
    let t := { t with pc := 1, localNonce := s.chainNonce }
    if i = 0 then { s with thread0 := t } else { s with thread1 := t }
  else if t.pc = 1 then
    let t := { t with pc := 2 }
    let s := { s with chainNonce := s.chainNonce + 1,
                      submitted := s.submitted ++ [(i.val, t.localNonce)] }
    if i = 0 then { s with thread0 := t } else { s with thread1 := t }
  else s

/-- Runs a whole interleaving schedule. -/
def runSched (sched : List (Fin 2)) (s : SchedState) : SchedState :=
  match sched with
  | [] => s
  | i :: rest => runSched rest (stepThread s i)

/-- Initial state for two concurrent custodial submissions when the
account's next nonce is `n`. -/
def initSched (n : ℕ) : SchedState :=
  { chainNonce := n
    thread0 := { pc := 0, localNonce := 0 }
    thread1 := { pc := 0, localNonce := 0 }
    submitted := [] }

/-- Two submissions race for the same sequence position when they are
accepted with the same nonce. -/
def hasNonceCollision (s : SchedState) : Bool :=
  match s.submitted with
  | (_, n0) :: (_, n1) :: _ => n0 == n1
  | _ => false

/-! ## Specification-side definitions

These follow the specification's wording, for comparison against the
definitions above, which are translated from the source. -/

/-- Modelled from the spec (§8 conversion correctness): the native
fallback amount `max(floor(requestedAmount × fixedRatio), minimumFloor)`
with the fixed ratio 2 and the minimum floor 5. -/
def specNativeFallbackAmount (requestedAmount : ℚ) : ℚ :=
  max ((⌊requestedAmount * 2⌋ : ℤ) : ℚ) 5

/-- Modelled from the spec (§4.5 step 1): the largest value in the fixed
ascending safe-amount table that does not exceed the given cap (`none`
when even the smallest entry exceeds it). -/
def specLadderClamp (cap : ℚ) : Option ℚ :=
  (safeAmounts.filter (fun a => a ≤ cap)).getLast?

/-- The C5 claim as stated: in every native-currency reward run, the
submitted amount is the requested amount clamped downward to the largest
safe-table entry that does not exceed the custodial native balance minus
the estimated gas reserve — so whenever such an entry exists, a native
transfer of exactly that value is submitted. -/
def nativeClampUsesBalanceClaim : Prop :=
  ∀ (L : Ledger) (user : String) (amt : ℚ) (mOk gOk : Bool) (v : ℚ),
    specLadderClamp (min amt (L.adminMatic - estimatedGasCost L)) = some v →
      Ev.submit .reward (.native user v) ∈ (processMaticReward L user amt mOk gOk).2

/-- The C1 claim as stated, over the traces of both orchestrator paths:
every settlement run submits the reward transfer only after the fee leg
has confirmed successfully. -/
def feeTerminalBeforeRewardClaim : Prop :=
  (∀ (L : Ledger) (user : String) (rt : RewardType) (amt : ℚ) (rOk fOk : Bool),
    rewardOnlyAfterFeeSuccess (processGamePayment L user rt amt rOk fOk).2 false = true) ∧
  (∀ (env : ClientEnv) (user : String) (rt : RewardType) (amt : ℚ) (tokenId : ℕ),
    rewardOnlyAfterFeeSuccess (clientSettlementRun env user rt amt tokenId).2 false = true)

/-- A custodial ledger state with ample fungible balance (100 Gianky). -/
def richLedger : Ledger :=
  { adminGianky := 100, adminMatic := 0, adminNftCount := 0
    nftOwner := fun _ => none, gasPrice := 0 }

/-- Scenario D of the spec: custodial fungible balance 3 against the
5-token fee. -/
def scenarioDLedger : Ledger :=
  { adminGianky := 3, adminMatic := 0, adminNftCount := 0
    nftOwner := fun _ => none, gasPrice := 0 }

/-- Scenario B of the spec: the custodian owns none of the registry token
ids (every `ownerOf` reverts), has a positive raw NFT count, and can
afford the 10-token Starter equivalence. -/
def scenarioBLedger : Ledger :=
  { adminGianky := 100, adminMatic := 0, adminNftCount := 3
    nftOwner := fun _ => none, gasPrice := 0 }

/-- A custodial ledger short on native currency: 0.3 MATIC, zero gas
price, ample Gianky. -/
def lowMaticLedger : Ledger :=
  { adminGianky := 100, adminMatic := 3/10, adminNftCount := 0
    nftOwner := fun _ => none, gasPrice := 0 }

/-- A custodial ledger flush with native currency (16 MATIC, near the
"current balance (~15.9 MATIC)" the source comments mention). -/
def richMaticLedger : Ledger :=
  { adminGianky := 100, adminMatic := 16, adminNftCount := 0
    nftOwner := fun _ => none, gasPrice := 0 }

/-- A custodial ledger with no Gianky at all. -/
def emptyGiankyLedger : Ledger :=
  { adminGianky := 0, adminMatic := 0, adminNftCount := 0
    nftOwner := fun _ => none, gasPrice := 0 }

/-! ## Theorems -/

/-- C8: for every player, `checkGameEligibility` returns
`eligible = (balance ≥ requiredFee)` and
`shortfall = max(0, requiredFee − balance)`, performs no ledger writes,
and returns normally for a not-eligible outcome; in particular with fee 5
and player balance 10 it returns `eligible = true`, `shortfall = 0`. -/
theorem checkGameEligibility_correct :
    (∀ (balRead : Except Unit ℚ) (nftRead : Except Unit ℕ),
      ((checkGameEligibility balRead nftRead).1.isEligible =
          decide (getTokenBalance balRead ≥ requiredFee) ∧
        (checkGameEligibility balRead nftRead).1.shortfall =
          max 0 (requiredFee - getTokenBalance balRead) ∧
        (checkGameEligibility balRead nftRead).2 = [])) ∧
    (checkGameEligibility (.ok 10) (.ok 0)).1.isEligible = true ∧
    (checkGameEligibility (.ok 10) (.ok 0)).1.shortfall = 0 := by
  refine ⟨fun balRead nftRead => ⟨rfl, rfl, rfl⟩, by decide, ?_⟩
  show max 0 (requiredFee - 10) = 0
  rw [max_eq_left]
  norm_num [requiredFee]

/-- C10: when the ledger read of the fungible balance fails,
`checkGameEligibility` does not surface an error: it returns the same
normal result as for a genuinely zero balance, with `tokenBalance = 0`,
`eligible = false` and `shortfall = requiredFee`. -/
theorem eligibility_read_failure_reports_zero :
    ∀ (nftRead : Except Unit ℕ),
      checkGameEligibility (.error ()) nftRead = checkGameEligibility (.ok 0) nftRead ∧
      (checkGameEligibility (.error ()) nftRead).1.tokenBalance = 0 ∧
      (checkGameEligibility (.error ()) nftRead).1.isEligible = false ∧
      (checkGameEligibility (.error ()) nftRead).1.shortfall = requiredFee := by
  intro nftRead
  refine ⟨rfl, rfl, rfl, ?_⟩
  show max 0 (requiredFee - 0) = requiredFee
  rw [sub_zero, max_eq_right]
  norm_num [requiredFee]

/-- C3: whenever the custodial fungible balance is strictly below the
required fee, both backend fee-settlement entry points fail fast with the
insufficient-custodial-funds error before submitting any transfer. -/
theorem insufficient_custodial_funds_fail_fast :
    ∀ (L : Ledger) (user : String) (rt : RewardType) (amt : ℚ)
      (rOk fOk wOk : Bool), L.adminGianky < requiredFee →
      processGameFee L wOk =
        ({ success := false, error := some "Admin wallet insufficient balance" }, []) ∧
      processGamePayment L user rt amt rOk fOk =
        ({ success := false, error := some "Admin wallet insufficient balance" }, []) := by
  intro L user rt amt rOk fOk wOk h
  constructor
  · simp [processGameFee, h]
  · simp [processGamePayment, h]

/-- C3 witness: Scenario D — custodial balance 3 against the 5-token
fee. -/
theorem insufficient_custodial_funds_fail_fast_witness :
    processGameFee scenarioDLedger true =
      ({ success := false, error := some "Admin wallet insufficient balance" }, []) ∧
    processGamePayment scenarioDLedger "player" .gianky 10 true true =
      ({ success := false, error := some "Admin wallet insufficient balance" }, []) :=
  insufficient_custodial_funds_fail_fast scenarioDLedger "player" .gianky 10
    true true true (by norm_num [scenarioDLedger, requiredFee])

/-- C2 (code bug): the backend reports reward success with locally
fabricated transaction hashes — the NFT branch of `processGamePayment`
fabricates `mock_nft_…` without any ledger submission, and the hybrid
fallback fabricates `mock_hybrid_…` success when the custodial fungible
balance cannot cover the equivalence amount. -/
theorem mock_success_reported :
    processGamePayment richLedger "player" .nft 0 true true =
      ({ success := true, feeTxHash := some (.real "fee"),
         rewardTxHash := some .mockNft },
        [.submit .fee (.token nftContractAddr requiredFee), .confirm .fee true]) ∧
    TxHash.mockNft.isMock = true ∧
    processHybridReward emptyGiankyLedger "player" .starter true =
      ({ success := true, rewardTxHash := some .mockHybrid }, []) ∧
    TxHash.mockHybrid.isMock = true := by
  refine ⟨by decide, rfl, by decide, rfl⟩

/-- C9 (code bug): `AdminWalletService` has no per-account serialization,
so the interleaving in which both concurrent custodial submissions read
the account nonce before either submits assigns both the same sequence
position (here nonce 7); the serialized schedule, by contrast, assigns
distinct positions. -/
theorem nonce_race_without_serialization :
    (runSched [0, 1, 0, 1] (initSched 7)).submitted = [(0, 7), (1, 7)] ∧
    hasNonceCollision (runSched [0, 1, 0, 1] (initSched 7)) = true ∧
    (runSched [0, 0, 1, 1] (initSched 7)).submitted = [(0, 7), (1, 8)] ∧
    hasNonceCollision (runSched [0, 0, 1, 1] (initSched 7)) = false := by
  refine ⟨by decide, by decide, by decide, by decide⟩

/-- C1 counterexample: the backend `processGamePayment` submits the
reward transfer first — in a run with ample custodial balance and a
Gianky reward, the reward-leg submission occurs while the fee leg has not
confirmed (the fee transfer is not even submitted yet), refuting the
claimed fee-terminal-before-reward ordering for "every settlement run". -/
theorem backend_rewards_before_fee_cex : ¬ feeTerminalBeforeRewardClaim := by
  intro h
  have h1 := h.1 richLedger "player" .gianky 10 true true
  exact absurd h1 (by decide)

/-- C1 amended: the fee-terminal-success-before-reward-dispatch ordering
holds on the client path (`playGameAndReceiveReward` followed by
`transferRewardAfterReveal`), while the backend `processGamePayment` uses
the reverse ordering — it submits the game fee only when no reward-leg
submission is still pending (the reward leg has reached a terminal
confirmation, or was never submitted). -/
theorem settlement_ordering_amended :
    (∀ (env : ClientEnv) (user : String) (rt : RewardType) (amt : ℚ) (tokenId : ℕ),
      rewardOnlyAfterFeeSuccess (clientSettlementRun env user rt amt tokenId).2 false = true) ∧
    (∀ (L : Ledger) (user : String) (rt : RewardType) (amt : ℚ) (rOk fOk : Bool),
      feeOnlyAfterRewardTerminal (processGamePayment L user rt amt rOk fOk).2 false = true) := by
  constructor
  · intro env user rt amt tokenId
    obtain ⟨nc, ub, fs, fr, rs, rr⟩ := env
    cases nc
    · simp [clientSettlementRun, playGameAndReceiveReward, payGameFeeFromUser,
        rewardOnlyAfterFeeSuccess]
    · by_cases hub : ub < requiredFee
      · simp [clientSettlementRun, playGameAndReceiveReward, payGameFeeFromUser,
          hub, rewardOnlyAfterFeeSuccess]
      · cases fs
        · simp [clientSettlementRun, playGameAndReceiveReward, payGameFeeFromUser,
            hub, rewardOnlyAfterFeeSuccess]
        · cases hw : waitForTransaction fr
          · simp [clientSettlementRun, playGameAndReceiveReward, payGameFeeFromUser,
              hub, hw, rewardOnlyAfterFeeSuccess]
          · cases rs
            · simp [clientSettlementRun, playGameAndReceiveReward, payGameFeeFromUser,
                transferRewardAfterReveal, hub, hw, rewardOnlyAfterFeeSuccess]
            · cases hw2 : waitForTransaction rr <;>
                simp [clientSettlementRun, playGameAndReceiveReward, payGameFeeFromUser,
                  transferRewardAfterReveal, clientRewardTransfer, hub, hw, hw2,
                  rewardOnlyAfterFeeSuccess]
  · intro L user rt amt rOk fOk
    unfold processGamePayment
    by_cases h : L.adminGianky < requiredFee
    · simp [h, feeOnlyAfterRewardTerminal]
    · cases rt
      · cases fOk <;>
          simp [h, processRewardStep, feeOnlyAfterRewardTerminal]
      · by_cases h2 : L.adminGianky < amt
        · simp [h, h2, processRewardStep, feeOnlyAfterRewardTerminal]
        · cases rOk <;> cases fOk <;>
            simp [h, h2, processRewardStep, feeOnlyAfterRewardTerminal]
      · by_cases h2 : L.adminMatic < amt + estimatedGasCost L
        · simp [h, h2, processRewardStep, feeOnlyAfterRewardTerminal]
        · cases rOk <;> cases fOk <;>
            simp [h, h2, processRewardStep, feeOnlyAfterRewardTerminal]

/-- C7 counterexample: the confirmation watcher does not surface a timed
out wait distinctly from a reverted receipt — `waitForTransaction`
returns the same `false` for both — and the caller reports the same
confirmed-failure error ("Fee payment failed. Please try again.") for a
timed-out fee transaction as for a reverted one. -/
theorem timeout_not_distinguished_cex :
    waitForTransaction .timedOut = waitForTransaction (.receipt false) ∧
    (playGameAndReceiveReward
        ⟨true, 10, .ok (), .timedOut, .ok (), .timedOut⟩).1 =
      { success := false, error := some "Fee payment failed. Please try again." } ∧
    (playGameAndReceiveReward
        ⟨true, 10, .ok (), .receipt false, .ok (), .receipt false⟩).1 =
      { success := false, error := some "Fee payment failed. Please try again." } := by
  refine ⟨rfl, by decide, by decide⟩

/-- C7 amended: `waitForTransaction` returns `true` only when an
execution receipt reports success, and returns the identical `false` for
a reverted receipt, a timed-out wait and a network error; the caller
`transferRewardAfterReveal` cannot distinguish them and reports any
`false` as the definitive "Reward transfer failed. Please try again.". -/
theorem waitForTransaction_success_only_amended :
    (∀ r : ReceiptOutcome, waitForTransaction r = true ↔ r = .receipt true) ∧
    waitForTransaction .timedOut = false ∧
    waitForTransaction .netError = false ∧
    (∀ (nc : Bool) (ub : ℚ) (fs : Except String Unit) (fr : ReceiptOutcome)
        (user : String) (rt : RewardType) (amt : ℚ) (tokenId : ℕ),
      transferRewardAfterReveal ⟨nc, ub, fs, fr, .ok (), .timedOut⟩ user rt amt tokenId =
        transferRewardAfterReveal ⟨nc, ub, fs, fr, .ok (), .receipt false⟩ user rt amt tokenId ∧
      (transferRewardAfterReveal ⟨nc, ub, fs, fr, .ok (), .timedOut⟩ user rt amt tokenId).1 =
        { success := false, error := some "Reward transfer failed. Please try again." }) := by
  refine ⟨?_, rfl, rfl, ?_⟩
  · intro r
    cases r with
    | receipt b => cases b <;> simp [waitForTransaction]
    | timedOut => simp [waitForTransaction]
    | netError => simp [waitForTransaction]
  · intro nc ub fs fr user rt amt tokenId
    exact ⟨rfl, rfl⟩

/-- C4: every native-currency fallback delegates the fungible amount
`max(floor(requestedAmount × 2), 5)` computed from the originally
requested amount (the insufficient-liquidity branch of
`processMaticReward` hands the original `amount`, not the clamped one, to
the fallback, which submits exactly the spec formula's value when
affordable); and the non-fungible fallback delegates exactly the static
equivalence-table value for the item class (Starter 10, Basic 15,
Standard 25, VIP 50, Premium 75, Diamond 100). -/
theorem conversion_correctness :
    (∀ (L : Ledger) (user : String) (amt : ℚ) (mOk gOk : Bool),
      L.adminMatic < getSafeMaticAmount amt + estimatedGasCost L →
        processMaticReward L user amt mOk gOk =
          processMaticToGiankyFallback L user amt gOk) ∧
    (∀ (L : Ledger) (user : String) (amt : ℚ) (gOk : Bool),
      getMaticToGiankyEquivalent amt ≤ L.adminGianky →
        (processMaticToGiankyFallback L user amt gOk).2.head? =
          some (.submit .reward (.token user (specNativeFallbackAmount amt)))) ∧
    (∀ amt : ℚ, getMaticToGiankyEquivalent amt = specNativeFallbackAmount amt) ∧
    getGiankyEquivalent .starter = 10 ∧ getGiankyEquivalent .basic = 15 ∧
    getGiankyEquivalent .standard = 25 ∧ getGiankyEquivalent .vip = 50 ∧
    getGiankyEquivalent .premium = 75 ∧ getGiankyEquivalent .diamond = 100 ∧
    (∀ (L : Ledger) (user : String) (t : NftType) (gOk : Bool),
      getGiankyEquivalent t ≤ L.adminGianky →
        (processHybridReward L user t gOk).2.head? =
          some (.submit .reward (.token user (getGiankyEquivalent t)))) := by
  refine ⟨?_, ?_, fun amt => rfl, rfl, rfl, rfl, rfl, rfl, rfl, ?_⟩
  · intro L user amt mOk gOk h
    simp [processMaticReward, h]
  · intro L user amt gOk h
    rw [getMaticToGiankyEquivalent] at h
    obtain ⟨ha, hb⟩ := max_le_iff.mp h
    cases gOk <;> simp [processMaticToGiankyFallback, getMaticToGiankyEquivalent,
      specNativeFallbackAmount, ha, hb]
  · intro L user t gOk h
    have h' : L.adminGianky ≥ getGiankyEquivalent t := h
    cases gOk <;> simp [processHybridReward, h']

/-- C4 witness: with custodial MATIC 0.3 short of the clamped 0.5 request
the run equals the fallback on the original amount 10; with ample Gianky
the fallback's first submission carries `max(floor(10 × 2), 5) = 20`; and
the Starter hybrid fallback's first submission carries the table value
10. -/
theorem conversion_correctness_witness :
    processMaticReward lowMaticLedger "player" 10 true true =
      processMaticToGiankyFallback lowMaticLedger "player" 10 true ∧
    (processMaticToGiankyFallback richLedger "player" 10 true).2.head? =
      some (.submit .reward (.token "player" (specNativeFallbackAmount 10))) ∧
    (processHybridReward scenarioBLedger "player" .starter true).2.head? =
      some (.submit .reward (.token "player" (getGiankyEquivalent .starter))) := by
  refine ⟨conversion_correctness.1 lowMaticLedger "player" 10 true true ?_,
    conversion_correctness.2.1 richLedger "player" 10 true ?_,
    conversion_correctness.2.2.2.2.2.2.2.2.2 scenarioBLedger "player" .starter true ?_⟩
  · norm_num [lowMaticLedger, getSafeMaticAmount, pickSafe, safeAmounts, estimatedGasCost]
  · have hfl : (⌊(10:ℚ) * 2⌋ : ℤ) = 20 := by norm_num
    rw [getMaticToGiankyEquivalent, hfl]
    rw [show ((20:ℤ) : ℚ) = 20 by norm_num, max_eq_left (by norm_num : (5:ℚ) ≤ 20)]
    norm_num [richLedger]
  · norm_num [getGiankyEquivalent, scenarioBLedger]

/-- The safe-amount table is ascending. -/
lemma safeAmounts_sorted : safeAmounts.Sorted (· ≤ ·) := by
  norm_num [safeAmounts, List.sorted_cons]

/-- For an ascending list, the break-on-first-too-large loop of
`getSafeMaticAmount` computes the last element of the filtered prefix —
the largest entry not exceeding the request — defaulting to the
accumulator. -/
lemma pickSafe_eq_filter_getLast (x : ℚ) :
    ∀ (l : List ℚ) (acc : ℚ), l.Sorted (· ≤ ·) →
      pickSafe l x acc = ((l.filter fun a => a ≤ x).getLast?).getD acc := by
  intro l
  induction l with
  | nil => intro acc _; rfl
  | cons a rest ih =>
    intro acc hs
    rw [List.sorted_cons] at hs
    obtain ⟨hall, hrest⟩ := hs
    by_cases hax : a ≤ x
    · rw [pickSafe, if_pos (by simpa using hax), List.filter_cons,
        if_pos (by simpa using hax), ih a hrest]
      cases hfr : (rest.filter fun a => decide (a ≤ x)) with
      | nil => simp [hfr]
      | cons b t =>
          rw [List.getLast?_cons_cons]
          obtain ⟨y, hy⟩ := Option.isSome_iff_exists.mp
            (by simp [List.getLast?_isSome] : ((b :: t).getLast?).isSome = true)
          rw [hy]
          rfl
    · rw [pickSafe, if_neg (by simpa using hax), List.filter_cons,
        if_neg (by simpa using hax)]
      have hnil : (rest.filter fun a => decide (a ≤ x)) = [] := by
        rw [List.filter_eq_nil_iff]
        intro b hb
        simp only [decide_eq_true_eq]
        intro hbx
        exact hax (le_trans (hall b hb) hbx)
      rw [hnil]
      rfl

/-- The fungible fallback never submits a native transfer. -/
lemma maticFallback_no_native (L : Ledger) (user : String) (amt : ℚ)
    (gOk : Bool) (v : ℚ) :
    Ev.submit .reward (.native user v) ∉
      (processMaticToGiankyFallback L user amt gOk).2 := by
  unfold processMaticToGiankyFallback
  by_cases hg : L.adminGianky ≥ getMaticToGiankyEquivalent amt <;>
    cases gOk <;> simp [hg]

/-- When the custodial native balance is below the clamped amount plus
gas, `processMaticReward` is exactly the fungible fallback on the
original amount. -/
lemma maticReward_fallback_of_insufficient (L : Ledger) (user : String)
    (amt : ℚ) (mOk gOk : Bool)
    (h : L.adminMatic < getSafeMaticAmount amt + estimatedGasCost L) :
    processMaticReward L user amt mOk gOk =
      processMaticToGiankyFallback L user amt gOk := by
  simp [processMaticReward, h]

/-- C5 counterexample: with custodial native balance 0.3 (gas price 0) a
Native(10) request has ladder entry 0.3 available under the claimed
balance-aware clamp, yet `processMaticReward` submits no native transfer
at all — `getSafeMaticAmount` clamps against the requested amount only
(yielding 0.5), finds the balance short, and falls back to the fungible
conversion. -/
theorem native_clamp_uses_balance_cex : ¬ nativeClampUsesBalanceClaim := by
  intro h
  have hsub : lowMaticLedger.adminMatic - estimatedGasCost lowMaticLedger = 3/10 := by
    norm_num [lowMaticLedger, estimatedGasCost]
  have hlc : specLadderClamp (3/10 : ℚ) = some (3/10) := by
    norm_num [specLadderClamp, safeAmounts, List.filter_cons, List.filter_nil,
      List.getLast?]
  have h1 := h lowMaticLedger "player" 10 true true (3/10)
    (by rw [hsub, min_eq_right (by norm_num : (3/10 : ℚ) ≤ 10)]; exact hlc)
  rw [maticReward_fallback_of_insufficient lowMaticLedger "player" 10 true true
    (by norm_num [lowMaticLedger, getSafeMaticAmount, pickSafe, safeAmounts,
      estimatedGasCost])] at h1
  exact maticFallback_no_native lowMaticLedger "player" 10 true (3/10) h1

/-- C5 amended: the clamp is computed from the requested amount alone —
`getSafeMaticAmount` returns the largest safe-table entry not exceeding
the request (0.05 when the request is below the table) — and the clamped
native transfer is submitted only when the custodial native balance
covers it plus the estimated gas; otherwise no native transfer is
submitted and the run falls back to the fungible conversion. -/
theorem native_clamp_from_request_amended :
    (∀ amt : ℚ, getSafeMaticAmount amt = (specLadderClamp amt).getD (1/20)) ∧
    (∀ (L : Ledger) (user : String) (amt : ℚ) (mOk gOk : Bool),
      (L.adminMatic < getSafeMaticAmount amt + estimatedGasCost L →
        ∀ v : ℚ, Ev.submit .reward (.native user v) ∉
          (processMaticReward L user amt mOk gOk).2) ∧
      (getSafeMaticAmount amt + estimatedGasCost L ≤ L.adminMatic → mOk = true →
        (processMaticReward L user amt mOk gOk).2 =
          [.submit .reward (.native user (getSafeMaticAmount amt)),
            .confirm .reward true])) := by
  constructor
  · intro amt
    rw [getSafeMaticAmount, specLadderClamp]
    exact pickSafe_eq_filter_getLast amt safeAmounts (1/20) safeAmounts_sorted
  · intro L user amt mOk gOk
    constructor
    · intro h v
      rw [maticReward_fallback_of_insufficient L user amt mOk gOk h]
      exact maticFallback_no_native L user amt gOk v
    · intro h hm
      subst hm
      simp [processMaticReward, not_lt.mpr h]

/-- C5 witness: for the short-balance ledger no native transfer of the
spec-side ladder value 0.3 is submitted; for an ample ledger (16 MATIC)
the clamped value 0.5 of a Native(10) request is submitted and
confirmed. -/
theorem native_clamp_from_request_amended_witness :
    Ev.submit .reward (.native "player" (3/10)) ∉
      (processMaticReward lowMaticLedger "player" 10 true true).2 ∧
    (processMaticReward richMaticLedger "player" 10 true true).2 =
      [.submit .reward (.native "player" (getSafeMaticAmount 10)),
        .confirm .reward true] :=
  ⟨(native_clamp_from_request_amended.2 lowMaticLedger "player" 10 true true).1
      (by norm_num [lowMaticLedger, getSafeMaticAmount, pickSafe, safeAmounts,
        estimatedGasCost]) (3/10),
    (native_clamp_from_request_amended.2 richMaticLedger "player" 10 true true).2
      (by norm_num [richMaticLedger, getSafeMaticAmount, pickSafe, safeAmounts,
        estimatedGasCost]) rfl⟩

/-- C6: a Starter non-fungible request, when no registry identifier is
owned by the custodian and the custodial fungible balance covers the
10-token Starter equivalence, returns a successful outcome delivering a
fungible transfer of 10 tokens — not an unavailability failure. -/
theorem scenarioB_starter_fungible_fallback :
    ∀ (L : Ledger) (user : String) (nftOk : Bool),
      (∀ tokenId ∈ knownTokenIds, L.nftOwner tokenId ≠ some adminAddr) →
      (10 : ℚ) ≤ L.adminGianky →
      processNFTReward L user .starter nftOk true =
        ({ success := true, rewardTxHash := some (.real "hybrid-gianky") },
          [.submit .reward (.token user 10), .confirm .reward true]) := by
  intro L user nftOk hOwn hBal
  have hfind : findAvailableTokenId L = none := by
    rw [findAvailableTokenId, List.find?_eq_none]
    intro tokenId hid
    simpa using hOwn tokenId hid
  by_cases hc : L.adminNftCount > 0 <;>
    simp [processNFTReward, hc, hfind, processHybridReward, getGiankyEquivalent] <;>
    exact hBal

/-- C6 witness: Scenario B — a custodian with raw NFT count 3 but owning
none of the registry identifiers, and 100 Gianky in balance. -/
theorem scenarioB_starter_fungible_fallback_witness :
    processNFTReward scenarioBLedger "player" .starter true true =
      ({ success := true, rewardTxHash := some (.real "hybrid-gianky") },
        [.submit .reward (.token "player" 10), .confirm .reward true]) :=
  scenarioB_starter_fungible_fallback scenarioBLedger "player" true
    (by intro tokenId _; simp [scenarioBLedger])
    (by norm_num [scenarioBLedger])

end Gianky
